import Mathlib

/-!
Verification of the lpsolve test-assembly encoder (`src/lpsolve/ata.py`).

The Python module compiles an item table plus a declarative constraint
specification into an lpsolve text program.  This file gives a shallow
embedding of that module: pandas data frames become association lists,
numpy boolean-mask selection becomes list filtering, Python string
joining becomes an explicit recursive join, and the fallible Python
operations (numpy truth-value tests, `int + str` concatenation, missing
data-frame columns) return `Except`/`Option`.  Theorems at the end of
the file settle the specification claims against these definitions.
-/

/-- Python `sep.join(l)`: empty string for an empty list, otherwise the
elements interleaved with `sep`. -/
def pyJoin (sep : String) : List String → String
  | [] => ""
  | [x] => x
  | x :: y :: xs => x ++ sep ++ pyJoin sep (y :: xs)

deriving instance DecidableEq for Except

/-- One content bound: an ordered set of item identifiers, a comparator
string and an integer limit (`Constraint.__init__` stores its three
arguments unchecked). -/
structure Constraint where
  ids : List String
  comparator : String
  constraint : Int
deriving DecidableEq, Inhabited, Repr

/-- Rendering `Constraint.as_lpsolve_string`: suffix every id with `_form`, join
with " + ", then append the comparator, the limit and ";\n" verbatim. -/
def Constraint.as_lpsolve_string (c : Constraint) (form : Nat) : String :=
  pyJoin " + " (c.ids.map (fun x => x ++ "_" ++ toString form)) ++
    c.comparator ++ toString c.constraint ++ ";\n"

/-- The numpy mask selection `ids[np.where(classification == category)]`:
the identifiers at the positions whose classification equals the
category. -/
def selectIds (classifications : List Int) (category : Int)
    (ids : List String) : List String :=
  ((ids.zip classifications).filter (fun p => p.2 == category)).map (·.1)

/-- A set of content bounds built from one rule (`ConstrainedAttribute`
and its subclass hold only the list `self.constraints`). -/
structure ConstrainedAttribute where
  constraints : List Constraint
deriving DecidableEq, Inhabited, Repr

/-- The constructor `ConstrainedAttribute.__init__`: one `Constraint` per
`(category, limit)` entry of the bound mapping, in mapping order, over
the items whose classification equals the category. -/
def ConstrainedAttribute.init (classifications : List Int)
    (comparator : String) (constraints : List (Int × Int))
    (ids : List String) : ConstrainedAttribute :=
  ⟨constraints.map (fun p =>
    { ids := selectIds classifications p.1 ids
      comparator := comparator
      constraint := p.2 })⟩

/-- The individual lines of `ConstrainedAttribute.as_lpsolve_string`
(one per contained `Constraint`, in list order). -/
def ConstrainedAttribute.lpsolveLines (ca : ConstrainedAttribute)
    (form : Nat) : List String :=
  ca.constraints.map (fun c => c.as_lpsolve_string form)

/-- Rendering `ConstrainedAttribute.as_lpsolve_string`: the concatenation
(`''.join`) of the renderings of the contained constraints. -/
def ConstrainedAttribute.as_lpsolve_string (ca : ConstrainedAttribute)
    (form : Nat) : String :=
  String.join (ca.lpsolveLines form)

/-- Python truth-value test of a numpy boolean array: an empty array is
falsy, a one-element array has the truth value of its element, and a
larger array raises ValueError. -/
def npBool : List Bool → Except String Bool
  | [] => .ok false
  | [b] => .ok b
  | _ :: _ :: _ =>
    .error "ValueError: The truth value of an array with more than one element is ambiguous. Use a.any() or a.all()"

/-- Python `all(...)` over a generator of numpy boolean arrays: tests
each array for truth in turn, short-circuiting on the first falsy one
and propagating the ValueError a multi-element array raises. -/
def pyAllMasks : List (List Bool) → Except String Bool
  | [] => .ok true
  | m :: ms =>
    match npBool m with
    | .error e => .error e
    | .ok false => .ok false
    | .ok true => pyAllMasks ms

/-- Loop body of `MultiConstrainedAttribute.__init__`: for each
`(category-tuple, limit)` entry, build per-attribute equality masks,
combine them with Python `all`, turn the resulting scalar truth value
into an index array via `np.where`, and index `ids` with it. -/
def multiGo (classifications : List (List Int)) (comparator : String)
    (ids : List String) :
    List (List Int × Int) → Except String (List Constraint)
  | [] => .ok []
  | (category, limit) :: rest =>
    if category.length < classifications.length then
      .error "IndexError: tuple index out of range"
    else
      match pyAllMasks ((classifications.zip category).map
          (fun p => p.1.map (fun v => v == p.2))) with
      | .error e => .error e
      | .ok b =>
        let items : List Nat := if b then [0] else []
        match multiGo classifications comparator ids rest with
        | .error e => .error e
        | .ok cs =>
          .ok ({ ids := items.filterMap (fun k => ids[k]?)
                 comparator := comparator
                 constraint := limit } :: cs)

/-- The constructor `MultiConstrainedAttribute.__init__`: the constraints the loop
builds, or the exception the first failing entry raises. -/
def MultiConstrainedAttribute.init (classifications : List (List Int))
    (comparator : String) (constraints : List (List Int × Int))
    (ids : List String) : Except String ConstrainedAttribute :=
  (multiGo classifications comparator ids constraints).map
    (fun cs => ⟨cs⟩)

/-- An item table: the `item_id` column plus the named categorical
attribute columns, all positionally aligned. -/
structure DataFrame where
  item_id : List String
  columns : List (String × List Int)
deriving DecidableEq, Inhabited, Repr

/-- Column lookup `data[name]`: the attribute column called `name`, if present. -/
def DataFrame.getColumn (d : DataFrame) (name : String) :
    Option (List Int) :=
  (d.columns.find? (fun p => p.1 == name)).map (·.2)

/-- One rule of the constraint specification: a comparator together
with the ordered `values` mapping from category to bound. -/
structure Rule where
  comparator : String
  values : List (Int × Int)
deriving DecidableEq, Inhabited, Repr

/-- The nested constraint specification: an ordered mapping from
attribute name to its list of rules. -/
abbrev ConstraintSpec := List (String × List Rule)

/-- The encoder state `Solver.__init__` builds. -/
structure Solver where
  num_forms : Nat
  items_per_form : Nat
  num_items : Nat
  ids : List String
  item_occurences : List (List String)
  form_items : List (List String)
  constraints : List ConstrainedAttribute
  var_names : List String
deriving DecidableEq, Inhabited, Repr

/-- The method `Solver._var_for`: the decision-variable name
`ids[item] + "_" + str(form)` (for the string-identifier tables the
encoder handles; see `var_for_py` for the general identifier case). -/
def var_for (ids : List String) (item form : Nat) : String :=
  ids.getD item "" ++ "_" ++ toString form

/-- The nested loop of `Solver.__init__` over the constraint
specification: for every attribute in order, look up its column
(`data[category]`, `none` when the column is missing) and build one
`ConstrainedAttribute` per rule. -/
def buildCAs (data : DataFrame) :
    ConstraintSpec → Option (List ConstrainedAttribute)
  | [] => some []
  | (cat, rules) :: rest =>
    match data.getColumn cat with
    | none => none
    | some col =>
      (buildCAs data rest).map (fun ls =>
        rules.map (fun r =>
          ConstrainedAttribute.init col r.comparator r.values
            data.item_id) ++ ls)

/-- The constructor `Solver.__init__`: derive the decision-variable universe, the
per-item and per-form variable lists, the content constraint sets and
the item-major `var_names` list. -/
def Solver.init (data : DataFrame) (spec : ConstraintSpec)
    (num_forms items_per_form : Nat) : Option Solver :=
  (buildCAs data spec).map (fun cas =>
    let n := data.item_id.length
    { num_forms := num_forms
      items_per_form := items_per_form
      num_items := n
      ids := data.item_id
      item_occurences := (List.range n).map (fun item =>
        (List.range num_forms).map (fun form =>
          var_for data.item_id item form))
      form_items := (List.range num_forms).map (fun form =>
        (List.range n).map (fun item =>
          var_for data.item_id item form))
      constraints := cas
      var_names := (List.range n).flatMap (fun item =>
        (List.range num_forms).map (fun form =>
          var_for data.item_id item form)) })

/-- The method `Solver.print_constraint`: decision variables joined by " + ",
then the comparator, the total and ";\n". -/
def print_constraint (decision_vars : List String) (comparator : String)
    (total : Int) : String :=
  pyJoin " + " decision_vars ++ comparator ++ toString total ++ ";\n"

/-- The uniqueness-constraint lines of `Solver.solve` (one per item). -/
def uniquenessLines (s : Solver) : List String :=
  (List.range s.num_items).map (fun i =>
    print_constraint (s.item_occurences.getD i []) "<=" 1)

/-- The size-constraint lines of `Solver.solve` (one per form). -/
def sizeLines (s : Solver) : List String :=
  (List.range s.num_forms).map (fun f =>
    print_constraint (s.form_items.getD f []) "=" (s.items_per_form : Int))

/-- The category-constraint section of `Solver.solve` as it is written:
for each form, one chunk per constraint set
(`constraint.as_lpsolve_string(form)`). -/
def categoryChunks (s : Solver) : List String :=
  (List.range s.num_forms).flatMap (fun form =>
    s.constraints.map (fun c => c.as_lpsolve_string form))

/-- The category-constraint section flattened into individual lines:
for each form, for each constraint set, one line per contained
constraint. -/
def categoryLines (s : Solver) : List String :=
  (List.range s.num_forms).flatMap (fun form =>
    s.constraints.flatMap (fun c => c.lpsolveLines form))

/-- The final `bin ...;` declaration line of `Solver.solve`. -/
def binLine (s : Solver) : String :=
  "bin " ++ pyJoin ", " s.var_names ++ ";\n"

/-- The sequence of strings `Solver.solve` writes to the output file,
in write order. -/
def solveChunks (s : Solver) : List String :=
  "min: ;\n" :: (uniquenessLines s ++ sizeLines s ++ categoryChunks s
    ++ [binLine s])

/-- The full text `Solver.solve` writes. -/
def solveText (s : Solver) : String :=
  String.join (solveChunks s)

/-- Number of category-to-bound entries summed over every rule of every
attribute of a constraint specification. -/
def ruleEntryCount (spec : ConstraintSpec) : Nat :=
  (spec.map (fun p => (p.2.map (fun r => r.values.length)).sum)).sum

/-- Number of category lines one form contributes: the total number of
constraints over all constraint sets. -/
def perForm (s : Solver) : Nat :=
  (s.constraints.map (fun ca => ca.constraints.length)).sum

/-- Position offset of constraint set `j` inside one form's block of
category lines. -/
def offsetAt (s : Solver) (j : Nat) : Nat :=
  ((s.constraints.take j).map (fun ca => ca.constraints.length)).sum

/-- One imperative write of `Solver.solve`: the file buffer grows, the
encoder object is untouched. -/
def writeL (st : Solver × List String) (line : String) :
    Solver × List String :=
  (st.1, st.2 ++ [line])

/-- The method `Solver.solve` as the imperative statement sequence it is: thread
the `(self, file-buffer)` state through the writes, each of which reads
the current `self`. -/
def solveRun (s : Solver) : Solver × List String :=
  let st0 : Solver × List String := (s, [])
  let st1 := writeL st0 "min: ;\n"
  let st2 := (List.range st1.1.num_items).foldl (fun acc i =>
    writeL acc (print_constraint (acc.1.item_occurences.getD i []) "<=" 1))
    st1
  let st3 := (List.range st2.1.num_forms).foldl (fun acc f =>
    writeL acc (print_constraint (acc.1.form_items.getD f []) "="
      (acc.1.items_per_form : Int))) st2
  let st4 := (List.range st3.1.num_forms).foldl (fun acc form =>
    acc.1.constraints.foldl (fun acc2 c =>
      writeL acc2 (c.as_lpsolve_string form)) acc) st3
  writeL st4 ("bin " ++ pyJoin ", " st4.1.var_names ++ ";\n")

/-- A Python identifier value as it comes out of the item-id column:
either a string or an integer. -/
inductive PyVal where
  | str (s : String)
  | int (n : Int)
deriving DecidableEq, Inhabited, Repr

/-- The method `Solver._var_for` over raw identifier values: Python evaluates
`ids[item] + "_" + str(form)`, which concatenates for a string
identifier and raises TypeError for an integer identifier. -/
def var_for_py (ids : List PyVal) (item form : Nat) :
    Except String String :=
  match ids.getD item (PyVal.str "") with
  | .str s => .ok (s ++ "_" ++ toString form)
  | .int _ => .error "TypeError: unsupported operand types for +: int and str"

/-- Modelled from the spec: the intended multi-attribute selection —
the identifiers of the items whose per-attribute values ALL equal the
corresponding entries of the category tuple (logical AND across
attributes, evaluated per item).  The repository's
`MultiConstrainedAttribute` is meant to compute this but its mask
combination is broken; this definition states the specified semantics
for comparison. -/
def specMultiMatch (classifications : List (List Int))
    (category : List Int) (ids : List String) : List String :=
  (List.range ids.length).filterMap (fun i =>
    if (classifications.zip category).all
        (fun p => p.1.getD i 0 == p.2) then ids[i]? else none)

/-- Scenario A item table: ids a, b, c with Content values 1, 2, 1. -/
def scenarioAData : DataFrame :=
  ⟨["a", "b", "c"], [("Content", [1, 2, 1])]⟩

/-- Scenario A constraint specification: the single rule
`comparator "<=", values mapping category 1 to bound 1`. -/
def scenarioASpec : ConstraintSpec :=
  [("Content", [⟨"<=", [(1, 1)]⟩])]

/-- The Scenario A encoder (2 forms, 1 item per form). -/
def scenarioASolver : Solver :=
  (Solver.init scenarioAData scenarioASpec 2 1).getD default

/-- Two-rule item table for the ordering scenario: ids a, b with
Content values 1, 2. -/
def scenarioBData : DataFrame :=
  ⟨["a", "b"], [("Content", [1, 2])]⟩

/-- Two rules on the same attribute: a maximum rule on category 1 and a
minimum rule on category 2. -/
def scenarioBSpec : ConstraintSpec :=
  [("Content", [⟨"<=", [(1, 1)]⟩, ⟨">=", [(2, 3)]⟩])]

/-- The two-rule, two-form encoder used for the ordering claims. -/
def scenarioBSolver : Solver :=
  (Solver.init scenarioBData scenarioBSpec 2 1).getD default

/-! ### String-joining helper lemmas -/

/-- Prepending an already-appended head distributes over `pyJoin`. -/
theorem pyJoin_append_head (sep x y : String) (bs : List String) :
    pyJoin sep ((x ++ y) :: bs) = x ++ pyJoin sep (y :: bs) := by
  cases bs <;> simp [pyJoin, String.append_assoc]

/-- The accumulator loop of `String.intercalate` agrees with `pyJoin`. -/
theorem intercalate_go_eq (sep : String) :
    ∀ (bs : List String) (acc : String),
      String.intercalate.go acc sep bs = pyJoin sep (acc :: bs)
  | [], _ => rfl
  | b :: bs, acc => by
    have hstep : String.intercalate.go acc sep (b :: bs) =
        String.intercalate.go (acc ++ sep ++ b) sep bs := rfl
    rw [hstep, intercalate_go_eq sep bs (acc ++ sep ++ b),
      String.append_assoc, pyJoin_append_head, pyJoin_append_head]
    have hpy : pyJoin sep (acc :: b :: bs) =
        acc ++ sep ++ pyJoin sep (b :: bs) := rfl
    rw [hpy, String.append_assoc]

/-- Python joining is `String.intercalate`. -/
theorem pyJoin_eq_intercalate (sep : String) (l : List String) :
    pyJoin sep l = String.intercalate sep l := by
  cases l with
  | nil => rfl
  | cons a as =>
    have h : String.intercalate sep (a :: as) =
        String.intercalate.go a sep as := rfl
    rw [h, intercalate_go_eq]

/-- Folding append over a list continues the accumulator. -/
theorem foldl_append_eq (l : List String) :
    ∀ acc : String, l.foldl (· ++ ·) acc = acc ++ String.join l := by
  induction l with
  | nil => intro acc; simp [String.join]
  | cons a t ih =>
    intro acc
    have h1 : (a :: t).foldl (· ++ ·) acc = t.foldl (· ++ ·) (acc ++ a) := rfl
    have h2 : String.join (a :: t) = t.foldl (· ++ ·) ("" ++ a) := rfl
    rw [h1, ih (acc ++ a), h2, ih ("" ++ a), String.empty_append,
      String.append_assoc]

/-- Unfolding `String.join` on a cons. -/
theorem join_cons (a : String) (l : List String) :
    String.join (a :: l) = a ++ String.join l := by
  have h : String.join (a :: l) = l.foldl (· ++ ·) ("" ++ a) := rfl
  rw [h, foldl_append_eq, String.empty_append]

/-- Splitting `String.join` over an append. -/
theorem join_append (l₁ l₂ : List String) :
    String.join (l₁ ++ l₂) = String.join l₁ ++ String.join l₂ := by
  induction l₁ with
  | nil => simp [String.join, String.empty_append]
  | cons a t ih => simp [join_cons, ih, String.append_assoc]

/-- Joining a flattened list equals the join of the
per-block joins. -/
theorem join_flatMap {α : Type} (l : List α) (g : α → List String) :
    String.join (l.flatMap g) =
      String.join (l.map (fun x => String.join (g x))) := by
  induction l with
  | nil => rfl
  | cons a t ih => simp [List.flatMap_cons, join_append, join_cons, ih]

/-! ### Block-indexing helper lemmas -/

/-- Element lookup inside a flattened list of equal-length blocks. -/
theorem flatMap_getElem_const {α β : Type} :
    ∀ (l : List α) (g : α → List β) (K : Nat),
      (∀ a ∈ l, (g a).length = K) →
      ∀ (i r : Nat) (hi : i < l.length), r < K →
        (l.flatMap g)[i * K + r]? = (g l[i])[r]?
  | [], _, _, _, i, _, hi => by simp at hi
  | a :: t, g, K, hK, i, r, hi => by
    intro hr
    cases i with
    | zero =>
      have ha : (g a).length = K := hK a (List.mem_cons_self a t)
      simp only [List.flatMap_cons, Nat.zero_mul, Nat.zero_add]
      rw [List.getElem?_append]
      simp [ha, hr]
    | succ i =>
      have ha : (g a).length = K := hK a (List.mem_cons_self a t)
      have hle : (g a).length ≤ (i + 1) * K + r := by
        rw [ha, Nat.succ_mul]; omega
      simp only [List.flatMap_cons]
      rw [List.getElem?_append_right hle]
      have hsub : (i + 1) * K + r - (g a).length = i * K + r := by
        rw [ha, Nat.succ_mul]; omega
      rw [hsub, List.getElem_cons_succ]
      exact flatMap_getElem_const t g K
        (fun x hx => hK x (List.mem_cons_of_mem a hx)) i r
        (Nat.lt_of_succ_lt_succ hi) hr

/-- Element lookup inside a flattened list of variable-length blocks,
addressed by the sum of the lengths of the preceding blocks. -/
theorem flatMap_getElem_at {α β : Type} :
    ∀ (cs : List α) (g : α → List β) (j : Nat) (hj : j < cs.length)
      (c : Nat), c < (g cs[j]).length →
      (cs.flatMap g)[((cs.take j).map (fun a => (g a).length)).sum + c]? =
        (g cs[j])[c]?
  | [], _, j, hj, _ => by simp at hj
  | a :: t, g, j, hj, c => by
    intro hc
    cases j with
    | zero =>
      simp only [List.take_zero, List.map_nil, List.sum_nil, Nat.zero_add,
        List.flatMap_cons]
      rw [List.getElem?_append]
      simp only [List.getElem_cons_zero] at hc
      simp [hc]
    | succ j =>
      simp only [List.take_succ_cons, List.map_cons, List.sum_cons,
        List.flatMap_cons]
      have hle : (g a).length ≤
          (g a).length + (((t.take j).map (fun a => (g a).length)).sum + c) := by
        omega
      rw [Nat.add_assoc, List.getElem?_append_right hle]
      simp only [Nat.add_sub_cancel_left, List.getElem_cons_succ]
      simp only [List.getElem_cons_succ] at hc
      exact flatMap_getElem_at t g j (Nat.lt_of_succ_lt_succ hj) c hc

/-- A position inside block `j` is below the total flattened length. -/
theorem take_sum_add_lt {α : Type} :
    ∀ (cs : List α) (F : α → Nat) (j : Nat) (hj : j < cs.length)
      (c : Nat), c < F cs[j] →
      ((cs.take j).map F).sum + c < (cs.map F).sum
  | [], _, j, hj, _ => by simp at hj
  | a :: t, F, j, hj, c => by
    intro hc
    cases j with
    | zero =>
      simp only [List.getElem_cons_zero] at hc
      simp only [List.take_zero, List.map_nil, List.sum_nil, Nat.zero_add,
        List.map_cons, List.sum_cons]
      omega
    | succ j =>
      simp only [List.getElem_cons_succ] at hc
      have ih := take_sum_add_lt t F j (Nat.lt_of_succ_lt_succ hj) c hc
      simp only [List.take_succ_cons, List.map_cons, List.sum_cons]
      omega

/-! ### Structure lemmas about the encoder construction -/

/-- The constraint sets built from a specification carry one constraint
per bound-mapping entry: their total count is `ruleEntryCount`. -/
theorem buildCAs_sum (data : DataFrame) :
    ∀ (spec : ConstraintSpec) (cas : List ConstrainedAttribute),
      buildCAs data spec = some cas →
      (cas.map (fun ca => ca.constraints.length)).sum = ruleEntryCount spec
  | [], cas => by
    intro h
    simp only [buildCAs, Option.some.injEq] at h
    subst h
    simp [ruleEntryCount]
  | (cat, rules) :: rest, cas => by
    intro h
    simp only [buildCAs] at h
    cases hcol : data.getColumn cat with
    | none => rw [hcol] at h; exact absurd h (by simp)
    | some col =>
      rw [hcol] at h
      cases hrest : buildCAs data rest with
      | none => rw [hrest] at h; exact absurd h (by simp)
      | some rest' =>
        rw [hrest] at h
        simp only [Option.map_some', Option.some.injEq] at h
        subst h
        have ih := buildCAs_sum data rest rest' hrest
        simp only [List.map_append, List.sum_append, ih, List.map_map,
          ruleEntryCount, List.map_cons, List.sum_cons]
        congr 1
        simp [Function.comp_def, ConstrainedAttribute.init]

/-- In a zip against a duplicate-free identifier list, each identifier
is paired with a single classification value. -/
theorem zip_functional :
    ∀ (ids : List String) (cls : List Int) (x : String) (v1 v2 : Int),
      ids.Nodup → (x, v1) ∈ ids.zip cls → (x, v2) ∈ ids.zip cls →
      v1 = v2
  | [], _, _, _, _ => by
    intro _ h1 _
    simp at h1
  | _ :: _, [], _, _, _ => by
    intro _ h1 _
    simp at h1
  | a :: as, c :: cs, x, v1, v2 => by
    intro hnd h1 h2
    rw [List.nodup_cons] at hnd
    rw [List.zip_cons_cons, List.mem_cons] at h1 h2
    cases h1 with
    | inl h1 =>
      cases h2 with
      | inl h2 =>
        rw [Prod.mk.injEq] at h1 h2
        rw [h1.2, h2.2]
      | inr h2 =>
        rw [Prod.mk.injEq] at h1
        exact absurd ((List.of_mem_zip (h1.1 ▸ h2)).1) hnd.1
    | inr h1 =>
      cases h2 with
      | inl h2 =>
        rw [Prod.mk.injEq] at h2
        exact absurd ((List.of_mem_zip (h2.1 ▸ h1)).1) hnd.1
      | inr h2 => exact zip_functional as cs x v1 v2 hnd.2 h1 h2

/-- Membership in the numpy-style selection: an identifier is selected
for a category exactly when some aligned position pairs it with that
category value. -/
theorem mem_selectIds (classifications : List Int) (category : Int)
    (ids : List String) (x : String) :
    x ∈ selectIds classifications category ids ↔
      ∃ v, (x, v) ∈ ids.zip classifications ∧ v = category := by
  constructor
  · intro hx
    simp only [selectIds, List.mem_map, List.mem_filter] at hx
    obtain ⟨p, ⟨hp, hpc⟩, hpx⟩ := hx
    subst hpx
    exact ⟨p.2, hp, beq_iff_eq.mp hpc⟩
  · rintro ⟨v, hmem, rfl⟩
    simp only [selectIds, List.mem_map, List.mem_filter]
    exact ⟨(x, v), ⟨hmem, beq_iff_eq.mpr rfl⟩, rfl⟩

/-! ### The imperative write sequence of `Solver.solve` -/

/-- A loop of writes whose lines only read the encoder part of the
state appends those lines and leaves the encoder part unchanged. -/
theorem foldl_write {α : Type} (g : Solver → α → String) :
    ∀ (l : List α) (f : Solver × List String → α → Solver × List String),
      (∀ st x, f st x = writeL st (g st.1 x)) →
      ∀ (s : Solver) (buf : List String),
        l.foldl f (s, buf) = (s, buf ++ l.map (g s))
  | [], f, hf, s, buf => by simp
  | a :: t, f, hf, s, buf => by
    rw [List.foldl_cons, hf, writeL]
    rw [foldl_write g t f hf s (buf ++ [g s a])]
    simp

/-- A loop whose body appends a block of lines computed from the
encoder part of the state appends the concatenated blocks and leaves
the encoder part unchanged. -/
theorem foldl_writeList {α : Type} (g : Solver → α → List String) :
    ∀ (l : List α) (f : Solver × List String → α → Solver × List String),
      (∀ st x, f st x = (st.1, st.2 ++ g st.1 x)) →
      ∀ (s : Solver) (buf : List String),
        l.foldl f (s, buf) = (s, buf ++ l.flatMap (g s))
  | [], f, hf, s, buf => by simp
  | a :: t, f, hf, s, buf => by
    rw [List.foldl_cons, hf]
    rw [foldl_writeList g t f hf s (buf ++ g s a)]
    simp

/-- The method `Solver.solve` computes exactly the chunk sequence `solveChunks`
and leaves the encoder unchanged. -/
theorem solveRun_eq (s : Solver) : solveRun s = (s, solveChunks s) := by
  have hinner : ∀ (st : Solver × List String) (form : Nat),
      st.1.constraints.foldl (fun acc2 c =>
        writeL acc2 (c.as_lpsolve_string form)) st =
      (st.1, st.2 ++ st.1.constraints.map
        (fun c => c.as_lpsolve_string form)) := by
    intro st form
    exact foldl_write (fun sv c => c.as_lpsolve_string form)
      st.1.constraints _ (fun _ _ => rfl) st.1 st.2
  have h1 : writeL (s, ([] : List String)) "min: ;\n" = (s, ["min: ;\n"]) := rfl
  simp only [solveRun]
  rw [h1]
  dsimp only
  rw [foldl_write (fun sv i =>
      print_constraint (sv.item_occurences.getD i []) "<=" 1)
    (List.range s.num_items) _ (fun _ _ => rfl) s ["min: ;\n"]]
  dsimp only
  rw [foldl_write (fun sv f =>
      print_constraint (sv.form_items.getD f []) "=" (sv.items_per_form : Int))
    (List.range s.num_forms) _ (fun _ _ => rfl) s _]
  dsimp only
  rw [foldl_writeList (fun sv form =>
      sv.constraints.map (fun c => c.as_lpsolve_string form))
    (List.range s.num_forms) _ (fun st form => hinner st form) s _]
  simp only [writeL, solveChunks, uniquenessLines, sizeLines,
    categoryChunks, binLine, List.append_assoc, List.cons_append,
    List.nil_append]

/-! ### Claim theorems -/

/-- C4 (code bug): the multi-attribute variant is meant to select, for
each category tuple, the items whose per-attribute values all equal the
tuple entries.  On two items with one attribute, the intended selection
is exactly `["a"]`, but the code path (`all` over numpy boolean masks)
raises ValueError for any item count above one; it only works by
accident on a one-item table. -/
theorem C4_multi_eval :
    MultiConstrainedAttribute.init [[1, 2]] "<=" [([1], 1)] ["a", "b"] =
      Except.error "ValueError: The truth value of an array with more than one element is ambiguous. Use a.any() or a.all()"
    ∧ specMultiMatch [[1, 2]] [1] ["a", "b"] = ["a"]
    ∧ MultiConstrainedAttribute.init [[1]] "<=" [([1], 1)] ["a"] =
      Except.ok ⟨[⟨["a"], "<=", 1⟩]⟩ := by
  decide

/-- C6: rendering a constraint yields exactly the identifiers suffixed
with the form index, joined by " + ", followed by the comparator
verbatim, the bound and ";\n"; an empty identifier list degenerates to
the comparator, the bound and ";\n" — the line is still produced. -/
theorem C6_render (ids : List String) (comparator : String) (f : Nat)
    (bound : Int) :
    Constraint.as_lpsolve_string ⟨ids, comparator, bound⟩ f =
      String.intercalate " + "
        (ids.map (fun x => x ++ "_" ++ toString f)) ++
        comparator ++ toString bound ++ ";\n"
    ∧ Constraint.as_lpsolve_string ⟨[], comparator, bound⟩ f =
      comparator ++ toString bound ++ ";\n" := by
  constructor
  · simp only [Constraint.as_lpsolve_string]
    rw [pyJoin_eq_intercalate]
  · simp [Constraint.as_lpsolve_string, pyJoin, String.empty_append]

/-- C7 (counterexample): constraint construction does not reject an
unrecognized comparator — `"??"` is accepted, stored, and rendered
verbatim. -/
theorem C7_counterexample :
    ConstrainedAttribute.init [1] "??" [(1, 2)] ["a"] =
      ⟨[⟨["a"], "??", 2⟩]⟩
    ∧ Constraint.as_lpsolve_string ⟨["a"], "??", 2⟩ 0 = "a_0??2;\n" := by
  decide

/-- C7 (amended): no comparator validation exists anywhere — for every
comparator string, recognized or not, rule processing stores the
comparator verbatim in one constraint per bound-mapping entry. -/
theorem C7_no_validation (classifications : List Int)
    (comparator : String) (constraints : List (Int × Int))
    (ids : List String) :
    (ConstrainedAttribute.init classifications comparator constraints
        ids).constraints.map Constraint.comparator =
      List.replicate constraints.length comparator
    ∧ (ConstrainedAttribute.init classifications comparator constraints
        ids).constraints.length = constraints.length := by
  constructor
  · simp [ConstrainedAttribute.init, List.map_map, Function.comp_def,
      List.map_const']
  · simp [ConstrainedAttribute.init]

/-- C8 (counterexample): variable-name synthesis fails on an integer
item identifier — Python `int + str` concatenation raises TypeError
instead of producing "3_0". -/
theorem C8_counterexample :
    var_for_py [PyVal.int 3] 0 0 =
      Except.error "TypeError: unsupported operand types for +: int and str"
    ∧ var_for_py [PyVal.int 3] 0 0 ≠ Except.ok "3_0" := by
  decide

/-- C8 (amended): for a table whose identifiers are strings,
variable-name synthesis succeeds for every in-range (item, form) pair
and yields the identifier, an underscore and the form index. -/
theorem C8_string_ids (ids : List String) (item form : Nat)
    (h : item < ids.length) :
    var_for_py (ids.map PyVal.str) item form =
      Except.ok (var_for ids item form)
    ∧ var_for ids item form =
      ids.getD item "" ++ "_" ++ toString form := by
  refine ⟨?_, rfl⟩
  have hget : (ids.map PyVal.str).getD item (PyVal.str "") =
      PyVal.str (ids.getD item "") := by
    rw [List.getD_eq_getElem?_getD, List.getD_eq_getElem?_getD,
      List.getElem?_map, List.getElem?_eq_getElem h]
    rfl
  rw [var_for_py, hget]
  rfl

/-- C8 witness: the amended statement instantiated at a one-item
string table. -/
theorem C8_string_ids_witness :
    0 < (["a"] : List String).length
    ∧ var_for_py [PyVal.str "a"] 0 0 = Except.ok (var_for ["a"] 0 0) :=
  ⟨by decide, (C8_string_ids ["a"] 0 0 (by decide)).1⟩

/-- C9: the encoding is deterministic — encoders constructed from equal
inputs render byte-identical output text. -/
theorem C9_deterministic (d1 d2 : DataFrame) (sp1 sp2 : ConstraintSpec)
    (nf1 nf2 ipf1 ipf2 : Nat) (h1 : d1 = d2) (h2 : sp1 = sp2)
    (h3 : nf1 = nf2) (h4 : ipf1 = ipf2) :
    (Solver.init d1 sp1 nf1 ipf1).map solveText =
      (Solver.init d2 sp2 nf2 ipf2).map solveText := by
  subst h1
  subst h2
  subst h3
  subst h4
  rfl

/-- C9 witness: two runs on the Scenario A inputs agree. -/
theorem C9_deterministic_witness :
    (Solver.init scenarioAData scenarioASpec 2 1).map solveText =
      (Solver.init scenarioAData scenarioASpec 2 1).map solveText :=
  C9_deterministic scenarioAData scenarioAData scenarioASpec
    scenarioASpec 2 2 1 1 rfl rfl rfl rfl

/-- C10: rendering does not mutate the encoder — the write sequence of
`solve` leaves the encoder state unchanged (every field included), so a
second `solve` call writes byte-identical output; the written sequence
is `solveChunks`. -/
theorem C10_solve_pure (s : Solver) :
    (solveRun s).1 = s
    ∧ (solveRun ((solveRun s).1)).2 = (solveRun s).2
    ∧ (solveRun s).2 = solveChunks s := by
  simp [solveRun_eq]

/-- The per-form chunks `solve` writes for the category section
concatenate to the same text as the flattened individual lines. -/
theorem join_categoryChunks (s : Solver) :
    String.join (categoryChunks s) = String.join (categoryLines s) := by
  rw [categoryChunks, categoryLines, join_flatMap, join_flatMap]
  simp only [join_flatMap, ConstrainedAttribute.as_lpsolve_string]

/-- C1: the rendered program contains exactly one uniqueness line per
item, one size line per form, and (rule entries summed across
attributes) × (form count) category lines; the rendered text is the
concatenation of those lines. -/
theorem C1_counts (data : DataFrame) (spec : ConstraintSpec)
    (num_forms items_per_form : Nat) (s : Solver)
    (h : Solver.init data spec num_forms items_per_form = some s) :
    (uniquenessLines s).length = data.item_id.length
    ∧ (sizeLines s).length = num_forms
    ∧ (categoryLines s).length = num_forms * ruleEntryCount spec
    ∧ solveText s = String.join ("min: ;\n" :: (uniquenessLines s ++
        sizeLines s ++ categoryLines s ++ [binLine s])) := by
  simp only [Solver.init] at h
  cases hb : buildCAs data spec with
  | none =>
    rw [hb] at h
    exact absurd h (by simp)
  | some cas =>
    rw [hb] at h
    simp only [Option.map_some', Option.some.injEq] at h
    have hsum := buildCAs_sum data spec cas hb
    subst h
    refine ⟨by simp [uniquenessLines], by simp [sizeLines], ?_, ?_⟩
    · simp only [categoryLines, List.length_flatMap, Function.comp_def,
        ConstrainedAttribute.lpsolveLines, List.length_map]
      simp only [hsum]
      simp [List.map_const', List.sum_replicate, smul_eq_mul]
    · simp only [solveText, solveChunks, join_cons, join_append,
        join_categoryChunks]

/-- C1 witness: the counts at the Scenario A inputs. -/
theorem C1_counts_witness :
    (uniquenessLines scenarioASolver).length =
      scenarioAData.item_id.length
    ∧ (sizeLines scenarioASolver).length = 2
    ∧ (categoryLines scenarioASolver).length =
      2 * ruleEntryCount scenarioASpec
    ∧ solveText scenarioASolver = String.join ("min: ;\n" ::
        (uniquenessLines scenarioASolver ++ sizeLines scenarioASolver ++
        categoryLines scenarioASolver ++ [binLine scenarioASolver])) :=
  C1_counts scenarioAData scenarioASpec 2 1 scenarioASolver (by decide)

/-- C2 (counterexample): with two rules and two forms, the line
generated from the second rule at form 0 (`b_0>=3;`) appears before the
line generated from the first rule at form 1 (`a_1<=1;`), so the
category lines are not in rule-then-form order. -/
theorem C2_order_counterexample :
    categoryLines scenarioBSolver =
      ["a_0<=1;\n", "b_0>=3;\n", "a_1<=1;\n", "b_1>=3;\n"]
    ∧ (scenarioBSolver.constraints.getD 1 default).lpsolveLines 0 =
      ["b_0>=3;\n"]
    ∧ (scenarioBSolver.constraints.getD 0 default).lpsolveLines 1 =
      ["a_1<=1;\n"]
    ∧ (categoryLines scenarioBSolver).indexOf "b_0>=3;\n" <
      (categoryLines scenarioBSolver).indexOf "a_1<=1;\n" := by
  decide

/-- C2 (amended): the category lines appear in form-then-rule order:
the line for constraint `c` of rule `j` at form `f` sits at position
`f * perForm + offset(j) + c`, so all lines of an earlier form precede
every line of a later form, and within one form the lines follow rule
order. -/
theorem C2_form_major (s : Solver) (f j c : Nat) (hf : f < s.num_forms)
    (hj : j < s.constraints.length)
    (hc : c < (s.constraints[j]).constraints.length) :
    (categoryLines s)[f * perForm s + (offsetAt s j + c)]? =
      some (((s.constraints[j]).constraints[c]).as_lpsolve_string f) := by
  rw [categoryLines]
  have hK : ∀ a ∈ List.range s.num_forms,
      ((fun form => s.constraints.flatMap
        (fun c0 => c0.lpsolveLines form)) a).length = perForm s := by
    intro a _
    simp [List.length_flatMap, ConstrainedAttribute.lpsolveLines,
      Function.comp_def, perForm]
  have hr : offsetAt s j + c < perForm s := by
    have hlt := take_sum_add_lt s.constraints
      (fun ca => ca.constraints.length) j hj c hc
    simpa [offsetAt, perForm] using hlt
  rw [flatMap_getElem_const (List.range s.num_forms)
    (fun form => s.constraints.flatMap (fun c0 => c0.lpsolveLines form))
    (perForm s) hK f (offsetAt s j + c) (by simpa using hf) hr]
  rw [List.getElem_range]
  have h2 := flatMap_getElem_at s.constraints
    (fun c0 => c0.lpsolveLines f) j hj c
    (by simpa [ConstrainedAttribute.lpsolveLines] using hc)
  have hoff : ((s.constraints.take j).map
      (fun a => (a.lpsolveLines f).length)).sum = offsetAt s j := by
    simp [ConstrainedAttribute.lpsolveLines, offsetAt]
  rw [hoff] at h2
  rw [h2]
  simp [ConstrainedAttribute.lpsolveLines, List.getElem?_map,
    List.getElem?_eq_getElem hc]

/-- C2 witness: the position formula instantiated at the two-rule,
two-form scenario — rule 0's form-1 line sits at position
`1 * perForm + offset(0) + 0`. -/
theorem C2_form_major_witness :
    (categoryLines scenarioBSolver)[1 * perForm scenarioBSolver +
      (offsetAt scenarioBSolver 0 + 0)]? = some "a_1<=1;\n" := by
  have h := C2_form_major scenarioBSolver 1 0 0 (by decide) (by decide)
    (by decide)
  rw [h]
  decide

/-- C3 (counterexample): on the Scenario A inputs the final declaration
line lists the variables in item-major order
`bin a_0, a_1, b_0, b_1, c_0, c_1;`, not the claimed form-major order
`bin a_0, b_0, c_0, a_1, b_1, c_1;`. -/
theorem C3_bin_counterexample :
    Solver.init scenarioAData scenarioASpec 2 1 = some scenarioASolver
    ∧ binLine scenarioASolver = "bin a_0, a_1, b_0, b_1, c_0, c_1;\n"
    ∧ binLine scenarioASolver ≠ "bin a_0, b_0, c_0, a_1, b_1, c_1;\n" := by
  decide

/-- C3 (amended): on the Scenario A inputs the encoder writes exactly
the objective line, three uniqueness lines, two size lines, the
category lines `a_0 + c_0<=1;` and `a_1 + c_1<=1;`, and the final
item-major declaration `bin a_0, a_1, b_0, b_1, c_0, c_1;`. -/
theorem C3_scenarioA_output :
    (Solver.init scenarioAData scenarioASpec 2 1).map solveChunks =
      some ["min: ;\n",
        "a_0 + a_1<=1;\n", "b_0 + b_1<=1;\n", "c_0 + c_1<=1;\n",
        "a_0 + b_0 + c_0=1;\n", "a_1 + b_1 + c_1=1;\n",
        "a_0 + c_0<=1;\n", "a_1 + c_1<=1;\n",
        "bin a_0, a_1, b_0, b_1, c_0, c_1;\n"] := by
  decide

/-- C5: every bound-mapping entry yields exactly one constraint over
the items whose classification equals its category; the selected sets
of distinct categories are disjoint (for duplicate-free identifiers),
and an identifier lands in some constraint of the rule exactly when its
classification value is one of the mapping's keys. -/
theorem C5_partition (classifications : List Int) (comparator : String)
    (constraints : List (Int × Int)) (ids : List String)
    (hnd : ids.Nodup) :
    (ConstrainedAttribute.init classifications comparator constraints
        ids).constraints = constraints.map (fun p =>
      ⟨selectIds classifications p.1 ids, comparator, p.2⟩)
    ∧ (∀ category x, x ∈ selectIds classifications category ids ↔
        ∃ v, (x, v) ∈ ids.zip classifications ∧ v = category)
    ∧ (∀ cat1 cat2, cat1 ≠ cat2 → ∀ x,
        x ∈ selectIds classifications cat1 ids →
        x ∉ selectIds classifications cat2 ids)
    ∧ (∀ x, (∃ c ∈ (ConstrainedAttribute.init classifications comparator
          constraints ids).constraints, x ∈ c.ids) ↔
        ∃ v, (x, v) ∈ ids.zip classifications ∧
          v ∈ constraints.map Prod.fst) := by
  refine ⟨rfl, fun category x => mem_selectIds _ _ _ _, ?_, ?_⟩
  · intro cat1 cat2 hne x h1 h2
    obtain ⟨v1, hz1, hv1⟩ := (mem_selectIds _ _ _ _).mp h1
    obtain ⟨v2, hz2, hv2⟩ := (mem_selectIds _ _ _ _).mp h2
    exact hne (hv1 ▸ hv2 ▸ zip_functional ids classifications x v1 v2
      hnd hz1 hz2)
  · intro x
    constructor
    · rintro ⟨c, hc, hx⟩
      simp only [ConstrainedAttribute.init, List.mem_map] at hc
      obtain ⟨p, hp, rfl⟩ := hc
      obtain ⟨v, hz, hv⟩ := (mem_selectIds _ _ _ _).mp hx
      exact ⟨v, hz, hv ▸ List.mem_map.mpr ⟨p, hp, rfl⟩⟩
    · rintro ⟨v, hz, hvk⟩
      obtain ⟨p, hp, hpv⟩ := List.mem_map.mp hvk
      refine ⟨⟨selectIds classifications p.1 ids, comparator, p.2⟩,
        List.mem_map.mpr ⟨p, hp, rfl⟩, ?_⟩
      exact (mem_selectIds _ _ _ _).mpr ⟨v, hz, hpv.symm⟩

/-- C5 witness: the partition statement instantiated at a two-item,
one-entry rule. -/
theorem C5_partition_witness :
    (["a", "b"] : List String).Nodup
    ∧ (ConstrainedAttribute.init [1, 2] "<=" [(1, 1)]
        ["a", "b"]).constraints = [(1, 1)].map (fun p =>
      ⟨selectIds [1, 2] p.1 ["a", "b"], "<=", p.2⟩) :=
  ⟨by decide, (C5_partition [1, 2] "<=" [(1, 1)] ["a", "b"] (by decide)).1⟩
